import Mathlib

/-!
# GoScanPorts — verification of the concurrent TCP port scanner

Shallow embedding of `main.go` (package main of ysfksr/GoScanPorts).

The program probes TCP ports of a host concurrently.  The network is the
only source of nondeterminism; we model it by a `ProbeEnv` giving, for each
port and each (0-based) attempt index, the outcome of `net.DialTimeout`
and the outcome of the one-byte liveness read performed after a successful
dial.  The host is fixed in the `PortScanner` configuration and the dial
address is `host:port`, a bijective function of the port, so the
environment is keyed by port number.

Goroutine scheduling nondeterminism only influences the order in which
open ports arrive in the shared `openPorts` channel; we model it by a
function `sched : List Int → List Int` that permutes the canonically
ordered list of emitted ports (theorems assume `∀ l, (sched l).Perm l`).
The `sync.WaitGroup` join guarantees the channel is drained only after
every probe has finished, hence the drained contents are exactly a
permutation of all emitted ports.

Go `int` values are modelled as `Int`; `time.Duration` as `Int`
(nanoseconds).  `make(chan int, n)` panics when `n < 0`, so `Scan`
returns `Option (List Int)` with `none` for the panic.  `sort.Ints`
sorts ascending; we use `List.insertionSort (· ≤ ·)`, extensionally the
unique ascending-sorted permutation on `Int` lists.
-/

/-- The kind of a failed `net.DialTimeout` call (`err != nil`).  The Go code
never inspects the error, but we keep the taxonomy so that theorems can
state that all failure kinds are treated identically. -/
inductive DialError where
  | timedOut
  | refused
  | unreachable
  | dnsFailure
deriving DecidableEq

/-- Outcome of one `net.DialTimeout("tcp", address, timeout)` call. -/
inductive DialResult where
  | ok
  | err (e : DialError)
deriving DecidableEq

/-- Outcome of the post-connect one-byte `conn.Read(buf)` liveness check. -/
inductive ReadOutcome where
  | data
  | timedOut
  | readErr
deriving DecidableEq

/-- The network environment: for each port and 0-based attempt index, the
result of the dial and of the liveness read on that attempt. -/
structure ProbeEnv where
  dial : Int → Nat → DialResult
  read : Int → Nat → ReadOutcome

/-- `type PortScanner struct { host string; timeout time.Duration; retryCount int }` -/
structure PortScanner where
  host : String
  timeout : Int
  retryCount : Int

/-- `func NewPortScanner(host string, timeout time.Duration, retryCount int) *PortScanner` -/
def NewPortScanner (host : String) (timeout : Int) (retryCount : Int) : PortScanner :=
  { host := host, timeout := timeout, retryCount := retryCount }

/-- The retry loop of `ScanPort`:
`for attempt := 0; attempt <= ps.retryCount; attempt++ { ... }`.
`fuel` is the number of loop iterations still permitted and `attempt` the
current value of the loop counter.  Returns the emitted value (`some port`
iff the port was sent on the `openPorts` channel) together with the number
of `net.DialTimeout` calls made.  On a successful dial the liveness read
is performed and its outcome discarded: every branch emits the port, as in
the source, where `_, _ = conn.Read(buf)` ignores the result and the code
falls through to `openPorts <- port; return`. -/
def scanPortLoop (env : ProbeEnv) (port : Int) : Nat → Nat → Option Int × Nat
  | _, 0 => (none, 0)
  | attempt, fuel + 1 =>
    match env.dial port attempt with
    | DialResult.ok =>
      match env.read port attempt with
      | ReadOutcome.data => (some port, 1)
      | ReadOutcome.timedOut => (some port, 1)
      | ReadOutcome.readErr => (some port, 1)
    | DialResult.err _ =>
      let rest := scanPortLoop env port (attempt + 1) fuel
      (rest.1, rest.2 + 1)

/-- `func (ps *PortScanner) ScanPort(port int, wg *sync.WaitGroup, openPorts chan<- int)`:
the value the probe emits on the `openPorts` channel (`some port` iff the
port is reported open).  The loop runs while `attempt <= ps.retryCount`,
i.e. `(ps.retryCount + 1).toNat` times. -/
def ScanPort (ps : PortScanner) (env : ProbeEnv) (port : Int) : Option Int :=
  (scanPortLoop env port 0 (ps.retryCount + 1).toNat).1

/-- Number of `net.DialTimeout` calls (connection attempts) a probe makes. -/
def scanPortAttempts (ps : PortScanner) (env : ProbeEnv) (port : Int) : Nat :=
  (scanPortLoop env port 0 (ps.retryCount + 1).toNat).2

/-- The ports dispatched by `for port := startPort; port <= endPort; port++`. -/
def intRange (startPort endPort : Int) : List Int :=
  (List.range (endPort - startPort + 1).toNat).map (fun i : Nat => startPort + (i : Int))

/-- Capacity of the result channel in `Scan`:
`openPorts := make(chan int, endPort-startPort+1)`. -/
def scanChanCap (startPort endPort : Int) : Int :=
  endPort - startPort + 1

/-- `sort.Ints(results)`: ascending sort. -/
def sortInts (l : List Int) : List Int :=
  l.insertionSort (· ≤ ·)

/-- `func (ps *PortScanner) Scan(startPort, endPort int) []int`.
The channel allocation panics when its capacity is negative (`none`).
Otherwise one probe per port of the range is launched, the join waits for
all of them, the channel is closed and drained (in scheduling order
`sched`) and the drained list sorted ascending. -/
def Scan (ps : PortScanner) (env : ProbeEnv) (sched : List Int → List Int)
    (startPort endPort : Int) : Option (List Int) :=
  if scanChanCap startPort endPort < 0 then none
  else some (sortInts (sched ((intRange startPort endPort).filterMap (ScanPort ps env))))

/-- `func getPopularPorts() []int`. -/
def getPopularPorts : List Int :=
  [80, 443, 8080, 8443, 8000, 3000, 4200, 5000,
   3306, 5432, 27017, 6379, 1433, 5984, 9200,
   21, 22, 23, 3389, 5900,
   25, 110, 143, 465, 587, 993, 995,
   53, 67, 445, 5672, 9090, 11211]

/-- `func (ps *PortScanner) ScanPopularPorts() []int`: the same launch,
join, drain and sort pipeline as `Scan`, duplicated in the source, with
the fixed popular-ports list and channel capacity `len(ports)` (never
negative, so no panic branch). -/
def ScanPopularPorts (ps : PortScanner) (env : ProbeEnv)
    (sched : List Int → List Int) : List Int :=
  sortInts (sched (getPopularPorts.filterMap (ScanPort ps env)))

/-- Capacity of the result channel in `ScanPopularPorts`:
`openPorts := make(chan int, len(ports))`. -/
def popularChanCap : Nat := getPopularPorts.length

/-- The generic scan pipeline applied to an arbitrary port list: dispatch
one probe per element, collect the emitted ports, sort ascending.  Both
entry points are instances of this function. -/
def scanPorts (ps : PortScanner) (env : ProbeEnv) (sched : List Int → List Int)
    (ports : List Int) : List Int :=
  sortInts (sched (ports.filterMap (ScanPort ps env)))

/-- What `main` decides to do after flag parsing. -/
inductive MainAction where
  | credits
  | abortInvalidRange
  | abortStartAfterEnd
  | runRange (startPort endPort : Int)
  | runPopular
deriving DecidableEq

/-- The dispatch logic of `func main()` after `flag.Parse()`: the credits
flag, then the two validation checks (each printing an error and
returning), then the choice between popular mode and range mode.  The two
abort actions are taken before `NewPortScanner` is called, so no scan
runs. -/
def mainDispatch (thx : Bool) (startPort endPort : Int) (popular : Bool) : MainAction :=
  if thx then MainAction.credits
  else if startPort < 1 ∨ startPort > 65535 ∨ endPort < 1 ∨ endPort > 65535 then
    MainAction.abortInvalidRange
  else if startPort > endPort then MainAction.abortStartAfterEnd
  else if popular then MainAction.runPopular
  else MainAction.runRange startPort endPort

/-- The ports for which `main` dispatches per-port work under an action:
none for credits or either abort. -/
def dispatchedPorts : MainAction → List Int
  | MainAction.runRange s e => intRange s e
  | MainAction.runPopular => getPopularPorts
  | _ => []

/-- Total number of connection attempts `main` causes under an action. -/
def dispatchedDials (ps : PortScanner) (env : ProbeEnv) (act : MainAction) : Nat :=
  ((dispatchedPorts act).map (scanPortAttempts ps env)).sum

/-- Concrete scanner configuration used by witnesses. -/
def psW : PortScanner := NewPortScanner "localhost" 2000000000 2

/-- Concrete environment used by witnesses: port 22 accepts every dial,
every other port refuses; the liveness read always times out. -/
def envW : ProbeEnv :=
  { dial := fun p _ => if p = 22 then DialResult.ok else DialResult.err DialError.refused
    read := fun _ _ => ReadOutcome.timedOut }

/-- Witness environment in which every dial fails, with a different error
kind on every attempt. -/
def envW2 : ProbeEnv :=
  { dial := fun _ a =>
      match a with
      | 0 => DialResult.err DialError.timedOut
      | 1 => DialResult.err DialError.unreachable
      | _ + 2 => DialResult.err DialError.dnsFailure
    read := fun _ _ => ReadOutcome.data }

/-- Witness environment with the same dial outcomes as `envW` but a
different liveness-read outcome. -/
def envW3 : ProbeEnv :=
  { dial := envW.dial
    read := fun _ _ => ReadOutcome.data }

/-- Witness scanner configured with a negative retry count. -/
def psW2 : PortScanner := NewPortScanner "localhost" 2000000000 (-1)

/-! ## Helper lemmas -/

/-- A probe only ever emits its own port number. -/
theorem scanPortLoop_fst_eq_some {env : ProbeEnv} {port q : Int} :
    ∀ {attempt fuel : Nat}, (scanPortLoop env port attempt fuel).1 = some q → q = port := by
  intro attempt fuel
  induction fuel generalizing attempt with
  | zero => intro h; simp [scanPortLoop] at h
  | succ n ih =>
    intro h
    rw [scanPortLoop] at h
    cases hd : env.dial port attempt with
    | ok =>
      rw [hd] at h
      cases hr : env.read port attempt <;> rw [hr] at h <;>
        exact (Option.some_inj.mp h).symm
    | err e =>
      rw [hd] at h
      exact ih h

theorem scanPort_eq_some {ps : PortScanner} {env : ProbeEnv} {port q : Int}
    (h : ScanPort ps env port = some q) : q = port :=
  scanPortLoop_fst_eq_some h

/-- Collecting the emitted values is the same as filtering the dispatched
ports by "the probe reported open". -/
theorem filterMap_scanPort_eq_filter (ps : PortScanner) (env : ProbeEnv) (l : List Int) :
    l.filterMap (ScanPort ps env) = l.filter (fun p => (ScanPort ps env p).isSome) := by
  induction l with
  | nil => rfl
  | cons a l ih =>
    rw [List.filterMap_cons, List.filter_cons]
    cases h : ScanPort ps env a with
    | none => simpa [h] using ih
    | some q =>
      have hq : q = a := scanPort_eq_some h
      subst hq
      simpa [h] using ih

theorem mem_intRange {s e p : Int} : p ∈ intRange s e ↔ s ≤ p ∧ p ≤ e := by
  unfold intRange
  simp only [List.mem_map, List.mem_range]
  constructor
  · rintro ⟨i, hi, rfl⟩
    omega
  · rintro ⟨h1, h2⟩
    exact ⟨(p - s).toNat, by omega, by omega⟩

theorem nodup_intRange (s e : Int) : (intRange s e).Nodup := by
  unfold intRange
  exact (List.nodup_range _).map (fun a b h => by omega)

theorem length_intRange (s e : Int) : (intRange s e).length = (scanChanCap s e).toNat := by
  unfold intRange scanChanCap
  rw [List.length_map, List.length_range]

theorem sortInts_sorted (l : List Int) : (sortInts l).Sorted (· ≤ ·) :=
  List.sorted_insertionSort _ l

theorem sortInts_perm (l : List Int) : (sortInts l).Perm l :=
  List.perm_insertionSort _ l

/-- Sorting is insensitive to the order in which the channel was filled. -/
theorem sortInts_eq_of_perm {l₁ l₂ : List Int} (h : l₁.Perm l₂) :
    sortInts l₁ = sortInts l₂ :=
  List.eq_of_perm_of_sorted ((sortInts_perm l₁).trans (h.trans (sortInts_perm l₂).symm))
    (sortInts_sorted l₁) (sortInts_sorted l₂)

/-- A probe dials at most once per permitted loop iteration. -/
theorem scanPortLoop_snd_le (env : ProbeEnv) (port : Int) :
    ∀ (attempt fuel : Nat), (scanPortLoop env port attempt fuel).2 ≤ fuel := by
  intro attempt fuel
  induction fuel generalizing attempt with
  | zero => simp [scanPortLoop]
  | succ n ih =>
    rw [scanPortLoop]
    cases hd : env.dial port attempt with
    | ok => cases hr : env.read port attempt <;> simp
    | err e => simpa using ih (attempt + 1)

/-- If the dial first succeeds on iteration `k` (0-based) and `k` is within
the budget, the probe emits its port. -/
theorem scanPortLoop_fst_of_ok {env : ProbeEnv} {port : Int} :
    ∀ {attempt fuel k : Nat}, k < fuel →
      (∀ j, j < k → env.dial port (attempt + j) ≠ DialResult.ok) →
      env.dial port (attempt + k) = DialResult.ok →
      (scanPortLoop env port attempt fuel).1 = some port := by
  intro attempt fuel
  induction fuel generalizing attempt with
  | zero => intro k hk; omega
  | succ n ih =>
    intro k hk hfail hok
    rw [scanPortLoop]
    cases k with
    | zero =>
      simp only [Nat.add_zero] at hok
      rw [hok]
      cases hr : env.read port attempt <;> rfl
    | succ m =>
      have h0 : env.dial port attempt ≠ DialResult.ok := by
        have := hfail 0 (Nat.succ_pos m)
        simpa using this
      cases hd : env.dial port attempt with
      | ok => exact absurd hd h0
      | err e =>
        refine ih (k := m) (by omega) ?_ ?_
        · intro j hj
          have := hfail (j + 1) (by omega)
          simpa [Nat.add_assoc, Nat.add_comm 1 j] using this
        · simpa [Nat.add_assoc, Nat.add_comm 1 m] using hok

/-- If every dial within the budget fails, the probe emits nothing. -/
theorem scanPortLoop_fst_of_allFail {env : ProbeEnv} {port : Int} :
    ∀ {attempt fuel : Nat},
      (∀ j, j < fuel → env.dial port (attempt + j) ≠ DialResult.ok) →
      (scanPortLoop env port attempt fuel).1 = none := by
  intro attempt fuel
  induction fuel generalizing attempt with
  | zero => intro _; simp [scanPortLoop]
  | succ n ih =>
    intro hfail
    rw [scanPortLoop]
    cases hd : env.dial port attempt with
    | ok =>
      exact absurd hd (by simpa using hfail 0 (Nat.succ_pos n))
    | err e =>
      refine ih ?_
      intro j hj
      have := hfail (j + 1) (by omega)
      simpa [Nat.add_assoc, Nat.add_comm 1 j] using this

/-- Membership in a sorted-and-scheduled channel drain reduces to
membership in the canonical emitted list. -/
theorem mem_sortInts_sched {sched : List Int → List Int}
    (hsched : ∀ l, (sched l).Perm l) {l : List Int} {p : Int} :
    p ∈ sortInts (sched l) ↔ p ∈ l :=
  ((sortInts_perm _).mem_iff).trans (hsched l).mem_iff

/-- The probe's behaviour depends only on the dial outcomes: the liveness
read never influences the emitted value nor the number of attempts. -/
theorem scanPortLoop_dial_congr {env env' : ProbeEnv} {port : Int}
    (hd : env.dial = env'.dial) :
    ∀ (attempt fuel : Nat),
      scanPortLoop env port attempt fuel = scanPortLoop env' port attempt fuel := by
  intro attempt fuel
  induction fuel generalizing attempt with
  | zero => rfl
  | succ n ih =>
    rw [scanPortLoop, scanPortLoop, ← hd]
    cases env.dial port attempt with
    | ok =>
      cases env.read port attempt <;> cases env'.read port attempt <;> rfl
    | err e => simp [ih (attempt + 1)]

/-! ## Claim theorems -/

/-- C1: for every valid range `[s,e]` with `1 ≤ s ≤ e ≤ 65535` and every
outcome of the per-port probes (any environment, any channel-arrival
order), the sequence returned by `Scan s e` is a subset of `[s,e]`,
strictly ascending, and contains no duplicate values. -/
theorem scan_range_subset_sorted_nodup (ps : PortScanner) (env : ProbeEnv)
    (sched : List Int → List Int) (s e : Int)
    (h1 : 1 ≤ s) (h2 : s ≤ e) (h3 : e ≤ 65535)
    (hsched : ∀ l, (sched l).Perm l) :
    ∃ r, Scan ps env sched s e = some r
      ∧ (∀ p ∈ r, s ≤ p ∧ p ≤ e)
      ∧ r.Sorted (· < ·) ∧ r.Nodup := by
  have hcap : ¬ scanChanCap s e < 0 := by unfold scanChanCap; omega
  refine ⟨sortInts (sched ((intRange s e).filterMap (ScanPort ps env))), ?_, ?_, ?_, ?_⟩
  · unfold Scan
    rw [if_neg hcap]
  · intro p hp
    have hp2 : p ∈ (intRange s e).filterMap (ScanPort ps env) :=
      (mem_sortInts_sched hsched).mp hp
    rw [List.mem_filterMap] at hp2
    obtain ⟨q, hq, hqe⟩ := hp2
    have hpq : p = q := scanPort_eq_some hqe
    exact mem_intRange.mp (hpq ▸ hq)
  · have hnd : ((intRange s e).filterMap (ScanPort ps env)).Nodup := by
      rw [filterMap_scanPort_eq_filter]
      exact (nodup_intRange s e).filter _
    have hnd2 : (sched ((intRange s e).filterMap (ScanPort ps env))).Nodup :=
      (hsched _).nodup_iff.mpr hnd
    have hnd3 : (sortInts (sched ((intRange s e).filterMap (ScanPort ps env)))).Nodup :=
      (sortInts_perm _).nodup_iff.mpr hnd2
    exact (sortInts_sorted _).lt_of_le hnd3
  · have hnd : ((intRange s e).filterMap (ScanPort ps env)).Nodup := by
      rw [filterMap_scanPort_eq_filter]
      exact (nodup_intRange s e).filter _
    exact (sortInts_perm _).nodup_iff.mpr ((hsched _).nodup_iff.mpr hnd)

/-- C1 witness at the concrete range `[20,25]` with port 22 open. -/
theorem scan_range_subset_sorted_nodup_witness :
    (1 : Int) ≤ 20 ∧ (20 : Int) ≤ 25 ∧ (25 : Int) ≤ 65535 ∧
    ∃ r, Scan psW envW (fun l => l) 20 25 = some r
      ∧ (∀ p ∈ r, 20 ≤ p ∧ p ≤ 25)
      ∧ r.Sorted (· < ·) ∧ r.Nodup :=
  ⟨by decide, by decide, by decide,
    scan_range_subset_sorted_nodup psW envW (fun l => l) 20 25
      (by decide) (by decide) (by decide) (fun l => List.Perm.refl l)⟩

/-- C2: for every duplicate-free port set the scan pipeline probes each
port exactly once, loses and double-counts no outcome, and returns exactly
the ports whose probe reported open — instantiated at both entry points:
in range mode the channel capacity `endPort-startPort+1` equals the size
of the dispatched set, and in popular mode the capacity `len(ports)`
equals the size of the curated (duplicate-free) list; in both modes at
most capacity-many results are emitted, so no probe blocks. -/
theorem scan_exact_open_ports (ps : PortScanner) (env : ProbeEnv)
    (sched : List Int → List Int) (s e : Int)
    (hse : s ≤ e) (hsched : ∀ l, (sched l).Perm l) :
    (∀ ports : List Int, ports.Nodup →
      (∀ p ∈ ports, ports.count p = 1)
      ∧ (ports.filterMap (ScanPort ps env)).length ≤ ports.length
      ∧ (scanPorts ps env sched ports).Nodup
      ∧ (∀ p : Int, p ∈ scanPorts ps env sched ports ↔
          p ∈ ports ∧ (ScanPort ps env p).isSome))
    ∧ (∀ p : Int, (intRange s e).count p = if s ≤ p ∧ p ≤ e then 1 else 0)
    ∧ (intRange s e).length = (scanChanCap s e).toNat
    ∧ ((intRange s e).filterMap (ScanPort ps env)).length ≤ (scanChanCap s e).toNat
    ∧ (∃ r, Scan ps env sched s e = some r ∧ r.Nodup
        ∧ ∀ p : Int, (p ∈ r ↔ s ≤ p ∧ p ≤ e ∧ (ScanPort ps env p).isSome))
    ∧ getPopularPorts.Nodup
    ∧ (∀ p ∈ getPopularPorts, getPopularPorts.count p = 1)
    ∧ getPopularPorts.length = popularChanCap
    ∧ (getPopularPorts.filterMap (ScanPort ps env)).length ≤ popularChanCap
    ∧ (ScanPopularPorts ps env sched).Nodup
    ∧ (∀ p : Int, p ∈ ScanPopularPorts ps env sched ↔
        p ∈ getPopularPorts ∧ (ScanPort ps env p).isSome) := by
  have hcap : ¬ scanChanCap s e < 0 := by unfold scanChanCap; omega
  have hgen : ∀ ports : List Int, ports.Nodup →
      (∀ p ∈ ports, ports.count p = 1)
      ∧ (ports.filterMap (ScanPort ps env)).length ≤ ports.length
      ∧ (scanPorts ps env sched ports).Nodup
      ∧ (∀ p : Int, p ∈ scanPorts ps env sched ports ↔
          p ∈ ports ∧ (ScanPort ps env p).isSome) := by
    intro ports hnd
    have hndf : (ports.filterMap (ScanPort ps env)).Nodup := by
      rw [filterMap_scanPort_eq_filter]
      exact hnd.filter _
    refine ⟨fun p hp => List.count_eq_one_of_mem hnd hp,
      List.length_filterMap_le _ _,
      (sortInts_perm _).nodup_iff.mpr ((hsched _).nodup_iff.mpr hndf), ?_⟩
    intro p
    unfold scanPorts
    rw [mem_sortInts_sched hsched, filterMap_scanPort_eq_filter, List.mem_filter]
  have hpopnd : getPopularPorts.Nodup := by decide
  obtain ⟨hr1, hr2, hr3, hr4⟩ := hgen (intRange s e) (nodup_intRange s e)
  obtain ⟨hq1, hq2, hq3, hq4⟩ := hgen getPopularPorts hpopnd
  refine ⟨hgen, ?_, length_intRange s e, ?_, ?_, hpopnd, hq1, rfl, hq2, hq3, hq4⟩
  · intro p
    by_cases hp : s ≤ p ∧ p ≤ e
    · rw [if_pos hp]
      exact List.count_eq_one_of_mem (nodup_intRange s e) (mem_intRange.mpr hp)
    · rw [if_neg hp]
      exact List.count_eq_zero.mpr (fun hmem => hp (mem_intRange.mp hmem))
  · calc ((intRange s e).filterMap (ScanPort ps env)).length
        ≤ (intRange s e).length := hr2
      _ = (scanChanCap s e).toNat := length_intRange s e
  · refine ⟨scanPorts ps env sched (intRange s e), ?_, hr3, ?_⟩
    · unfold Scan scanPorts
      rw [if_neg hcap]
    · intro p
      rw [hr4 p, mem_intRange]
      constructor
      · rintro ⟨⟨hs, he⟩, hopen⟩
        exact ⟨hs, he, hopen⟩
      · rintro ⟨hs, he, hopen⟩
        exact ⟨⟨hs, he⟩, hopen⟩

/-- C2 witness: the concrete range `[20,25]` and the popular list, with
port 22 open under `envW`. -/
theorem scan_exact_open_ports_witness :
    (20 : Int) ≤ 25 ∧
    ((∀ ports : List Int, ports.Nodup →
      (∀ p ∈ ports, ports.count p = 1)
      ∧ (ports.filterMap (ScanPort psW envW)).length ≤ ports.length
      ∧ (scanPorts psW envW (fun l => l) ports).Nodup
      ∧ (∀ p : Int, p ∈ scanPorts psW envW (fun l => l) ports ↔
          p ∈ ports ∧ (ScanPort psW envW p).isSome))
    ∧ (∀ p : Int, (intRange 20 25).count p = if 20 ≤ p ∧ p ≤ 25 then 1 else 0)
    ∧ (intRange 20 25).length = (scanChanCap 20 25).toNat
    ∧ ((intRange 20 25).filterMap (ScanPort psW envW)).length ≤ (scanChanCap 20 25).toNat
    ∧ (∃ r, Scan psW envW (fun l => l) 20 25 = some r ∧ r.Nodup
        ∧ ∀ p : Int, (p ∈ r ↔ 20 ≤ p ∧ p ≤ 25 ∧ (ScanPort psW envW p).isSome))
    ∧ getPopularPorts.Nodup
    ∧ (∀ p ∈ getPopularPorts, getPopularPorts.count p = 1)
    ∧ getPopularPorts.length = popularChanCap
    ∧ (getPopularPorts.filterMap (ScanPort psW envW)).length ≤ popularChanCap
    ∧ (ScanPopularPorts psW envW (fun l => l)).Nodup
    ∧ (∀ p : Int, p ∈ ScanPopularPorts psW envW (fun l => l) ↔
        p ∈ getPopularPorts ∧ (ScanPort psW envW p).isSome)) :=
  ⟨by decide,
    scan_exact_open_ports psW envW (fun l => l) 20 25 (by decide)
      (fun l => List.Perm.refl l)⟩

/-- C3: with a configured retry count `r ≥ 0` a probe makes at most `r+1`
connection attempts; a port whose listener first accepts on attempt `M`
(1-based) with `M ≤ r+1` is reported open, and a port whose listener
accepts no attempt within the budget is reported closed. -/
theorem scanPort_retry_semantics (ps : PortScanner) (env : ProbeEnv) (port : Int)
    (hr : 0 ≤ ps.retryCount) :
    scanPortAttempts ps env port ≤ (ps.retryCount + 1).toNat
    ∧ (∀ M : Nat, 1 ≤ M → (M : Int) ≤ ps.retryCount + 1 →
        (∀ j : Nat, j < M - 1 → env.dial port j ≠ DialResult.ok) →
        env.dial port (M - 1) = DialResult.ok →
        ScanPort ps env port = some port)
    ∧ ((∀ j : Nat, (j : Int) ≤ ps.retryCount → env.dial port j ≠ DialResult.ok) →
        ScanPort ps env port = none) := by
  refine ⟨scanPortLoop_snd_le env port 0 _, ?_, ?_⟩
  · intro M hM1 hMr hfail hok
    unfold ScanPort
    refine scanPortLoop_fst_of_ok (k := M - 1) (by omega) ?_ ?_
    · intro j hj
      simpa using hfail j hj
    · simpa using hok
  · intro hfail
    unfold ScanPort
    refine scanPortLoop_fst_of_allFail ?_
    intro j hj
    have hjr : (j : Int) ≤ ps.retryCount := by omega
    simpa using hfail j hjr

/-- C3 witness: port 22 accepts the first attempt and is reported open;
the attempt budget at retry count 2 is 3. -/
theorem scanPort_retry_semantics_witness :
    0 ≤ psW.retryCount ∧
    (scanPortAttempts psW envW 22 ≤ (psW.retryCount + 1).toNat
    ∧ (∀ M : Nat, 1 ≤ M → (M : Int) ≤ psW.retryCount + 1 →
        (∀ j : Nat, j < M - 1 → envW.dial 22 j ≠ DialResult.ok) →
        envW.dial 22 (M - 1) = DialResult.ok →
        ScanPort psW envW 22 = some 22)
    ∧ ((∀ j : Nat, (j : Int) ≤ psW.retryCount → envW.dial 22 j ≠ DialResult.ok) →
        ScanPort psW envW 22 = none)) :=
  ⟨by decide, scanPort_retry_semantics psW envW 22 (by decide)⟩

/-- C4: whatever kinds of dial failure occur on the attempts (timeout,
refusal, unreachable, DNS failure, in any mixture), once the retry budget
is exhausted the probe's outcome is the same: the port is reported closed
(`none`, so it is absent from the result and no error value reaches the
caller), indistinguishable from any other all-attempts-failed probe,
including one that failed on the very first attempt. -/
theorem scanPort_flat_error_taxonomy (ps : PortScanner) (env env' : ProbeEnv) (port : Int)
    (h : ∀ a, env.dial port a ≠ DialResult.ok)
    (h' : ∀ a, env'.dial port a ≠ DialResult.ok) :
    ScanPort ps env port = none ∧ ScanPort ps env port = ScanPort ps env' port := by
  have he : ScanPort ps env port = none := by
    unfold ScanPort
    exact scanPortLoop_fst_of_allFail (fun j _ => h (0 + j))
  have he2 : ScanPort ps env' port = none := by
    unfold ScanPort
    exact scanPortLoop_fst_of_allFail (fun j _ => h' (0 + j))
  exact ⟨he, he.trans he2.symm⟩

/-- C4 witness: port 23 always refused in `envW`, and failing with a
different error kind on every attempt in `envW2`; both probes report
closed with the same outcome. -/
theorem scanPort_flat_error_taxonomy_witness :
    (∀ a, envW.dial 23 a ≠ DialResult.ok) ∧ (∀ a, envW2.dial 23 a ≠ DialResult.ok) ∧
    (ScanPort psW envW 23 = none ∧ ScanPort psW envW 23 = ScanPort psW envW2 23) :=
  ⟨fun a => by simp [envW], fun a => by rcases a with _ | _ | a <;> simp [envW2],
    scanPort_flat_error_taxonomy psW envW envW2 23
      (fun a => by simp [envW]) (fun a => by rcases a with _ | _ | a <;> simp [envW2])⟩

/-- C5: the one-byte liveness read performed after a successful dial never
alters the open/closed verdict: two environments with identical dial
outcomes but arbitrary (possibly different) read outcomes give the same
probe result for every port. -/
theorem scanPort_read_independent (ps : PortScanner) (env env' : ProbeEnv) (port : Int)
    (hd : env.dial = env'.dial) :
    ScanPort ps env port = ScanPort ps env' port := by
  unfold ScanPort
  rw [scanPortLoop_dial_congr hd]

/-- C5 witness: same dial outcomes, liveness read timing out in one
environment and returning data in the other; port 22 reported open in
both. -/
theorem scanPort_read_independent_witness :
    envW.dial = envW3.dial ∧ ScanPort psW envW 22 = ScanPort psW envW3 22 ∧
    ScanPort psW envW 22 = some 22 :=
  ⟨rfl, scanPort_read_independent psW envW envW3 22 rfl, by decide⟩

/-- C6: both entry points equal the one generic scan pipeline applied to
their respective port lists (`Scan` additionally guards the channel
allocation, which cannot fail on a validated range), and popular-ports
mode reports only ports of the fixed curated list. -/
theorem scan_entry_points_generic (ps : PortScanner) (env : ProbeEnv)
    (sched : List Int → List Int) (hsched : ∀ l, (sched l).Perm l) :
    (∀ s e : Int, s ≤ e → Scan ps env sched s e = some (scanPorts ps env sched (intRange s e)))
    ∧ ScanPopularPorts ps env sched = scanPorts ps env sched getPopularPorts
    ∧ ∀ p ∈ ScanPopularPorts ps env sched, p ∈ getPopularPorts := by
  refine ⟨?_, rfl, ?_⟩
  · intro s e hse
    have hcap : ¬ scanChanCap s e < 0 := by unfold scanChanCap; omega
    unfold Scan scanPorts
    rw [if_neg hcap]
  · intro p hp
    have hp2 : p ∈ getPopularPorts.filterMap (ScanPort ps env) :=
      (mem_sortInts_sched hsched).mp hp
    rw [List.mem_filterMap] at hp2
    obtain ⟨q, hq, hqe⟩ := hp2
    have hpq : p = q := scanPort_eq_some hqe
    exact hpq ▸ hq

/-- C6 witness: identity schedule with the concrete scanner and
environment. -/
theorem scan_entry_points_generic_witness :
    (∀ s e : Int, s ≤ e →
      Scan psW envW (fun l => l) s e = some (scanPorts psW envW (fun l => l) (intRange s e)))
    ∧ ScanPopularPorts psW envW (fun l => l) = scanPorts psW envW (fun l => l) getPopularPorts
    ∧ ∀ p ∈ ScanPopularPorts psW envW (fun l => l), p ∈ getPopularPorts :=
  scan_entry_points_generic psW envW (fun l => l) (fun l => List.Perm.refl l)

/-- C7: any input with `start < 1`, `start > 65535`, `end < 1`,
`end > 65535` or `start > end` makes `main` abort with a user-facing
message before any probing: no port is dispatched and zero connection
attempts are made, whichever scan mode was requested. -/
theorem main_invalid_input_aborts (ps : PortScanner) (env : ProbeEnv)
    (s e : Int) (popular : Bool)
    (h : s < 1 ∨ s > 65535 ∨ e < 1 ∨ e > 65535 ∨ s > e) :
    (mainDispatch false s e popular = MainAction.abortInvalidRange ∨
     mainDispatch false s e popular = MainAction.abortStartAfterEnd)
    ∧ dispatchedPorts (mainDispatch false s e popular) = []
    ∧ dispatchedDials ps env (mainDispatch false s e popular) = 0 := by
  by_cases hb : s < 1 ∨ s > 65535 ∨ e < 1 ∨ e > 65535
  · have hd : mainDispatch false s e popular = MainAction.abortInvalidRange := by
      unfold mainDispatch
      rw [if_neg (by simp), if_pos hb]
    rw [hd]
    exact ⟨Or.inl rfl, rfl, rfl⟩
  · have hse : s > e := by
      push_neg at hb
      rcases h with h | h | h | h | h <;> omega
    have hd : mainDispatch false s e popular = MainAction.abortStartAfterEnd := by
      unfold mainDispatch
      rw [if_neg (by simp), if_neg hb, if_pos hse]
    rw [hd]
    exact ⟨Or.inr rfl, rfl, rfl⟩

/-- C7 witness: `start = 0` aborts before any probing. -/
theorem main_invalid_input_aborts_witness :
    ((0 : Int) < 1 ∨ (0 : Int) > 65535 ∨ (1024 : Int) < 1 ∨ (1024 : Int) > 65535 ∨
      (0 : Int) > 1024) ∧
    ((mainDispatch false 0 1024 false = MainAction.abortInvalidRange ∨
      mainDispatch false 0 1024 false = MainAction.abortStartAfterEnd)
    ∧ dispatchedPorts (mainDispatch false 0 1024 false) = []
    ∧ dispatchedDials psW envW (mainDispatch false 0 1024 false) = 0) :=
  ⟨by decide, main_invalid_input_aborts psW envW 0 1024 false (by decide)⟩

/-- C8: with a static network (each probe's outcome determined solely by
its port, the same on every attempt), two scan runs with the same
configuration over the same range return the same result, independent of
the completion order of the concurrent probes in either run. -/
theorem scan_schedule_independent (ps : PortScanner) (env : ProbeEnv)
    (sched₁ sched₂ : List Int → List Int) (s e : Int)
    (henv : ∀ p a b, env.dial p a = env.dial p b)
    (h₁ : ∀ l, (sched₁ l).Perm l) (h₂ : ∀ l, (sched₂ l).Perm l) :
    Scan ps env sched₁ s e = Scan ps env sched₂ s e := by
  unfold Scan
  by_cases hc : scanChanCap s e < 0
  · rw [if_pos hc, if_pos hc]
  · rw [if_neg hc, if_neg hc]
    exact congrArg some (sortInts_eq_of_perm ((h₁ _).trans (h₂ _).symm))

/-- C8 witness: identity order versus reversed order over `[20,25]`. -/
theorem scan_schedule_independent_witness :
    (∀ (p : Int) (a b : Nat), envW.dial p a = envW.dial p b) ∧
    Scan psW envW (fun l => l) 20 25 = Scan psW envW (fun l => l.reverse) 20 25 :=
  ⟨fun _ _ _ => rfl,
    scan_schedule_independent psW envW (fun l => l) (fun l => l.reverse) 20 25
      (fun _ _ _ => rfl) (fun l => List.Perm.refl l) (fun l => l.reverse_perm)⟩

/-- C9: with a negative configured retry count the attempt loop never
executes: every probe makes zero connection attempts and reports closed,
so `Scan` returns the empty sequence for every range and every
environment (hence every host). -/
theorem negative_retry_scans_empty (ps : PortScanner) (env : ProbeEnv)
    (sched : List Int → List Int) (hneg : ps.retryCount < 0)
    (hsched : ∀ l, (sched l).Perm l) :
    (∀ port : Int, scanPortAttempts ps env port = 0 ∧ ScanPort ps env port = none)
    ∧ ∀ s e : Int, s ≤ e → Scan ps env sched s e = some [] := by
  have hfuel : (ps.retryCount + 1).toNat = 0 := by omega
  have hport : ∀ port : Int, scanPortAttempts ps env port = 0 ∧ ScanPort ps env port = none := by
    intro port
    unfold scanPortAttempts ScanPort
    rw [hfuel]
    exact ⟨rfl, rfl⟩
  refine ⟨hport, ?_⟩
  intro s e hse
  have hcap : ¬ scanChanCap s e < 0 := by unfold scanChanCap; omega
  have hnil : (intRange s e).filterMap (ScanPort ps env) = [] :=
    List.filterMap_eq_nil_iff.mpr (fun p _ => (hport p).2)
  unfold Scan
  rw [if_neg hcap, hnil, (hsched []).eq_nil]
  rfl

/-- C9 witness: retry count `-1`, range `[20,25]`. -/
theorem negative_retry_scans_empty_witness :
    psW2.retryCount < 0 ∧
    ((∀ port : Int, scanPortAttempts psW2 envW port = 0 ∧ ScanPort psW2 envW port = none)
    ∧ ∀ s e : Int, s ≤ e → Scan psW2 envW (fun l => l) s e = some []) :=
  ⟨by decide, negative_retry_scans_empty psW2 envW (fun l => l) (by decide)
    (fun l => List.Perm.refl l)⟩

/-- C10: the result channel's capacity is `endPort - startPort + 1`; under
the validated precondition `startPort ≤ endPort` it is positive and `Scan`
returns normally, while a direct call with `startPort > endPort + 1` hits
the negative-capacity panic of `make(chan int, ...)` — a branch the input
validation makes unreachable. -/
theorem scan_channel_capacity_safe (ps : PortScanner) (env : ProbeEnv)
    (sched : List Int → List Int) (s e : Int) :
    scanChanCap s e = e - s + 1
    ∧ (s ≤ e → 0 < scanChanCap s e ∧ (Scan ps env sched s e).isSome)
    ∧ (s > e + 1 → Scan ps env sched s e = none) := by
  refine ⟨rfl, ?_, ?_⟩
  · intro hse
    have hcap : ¬ scanChanCap s e < 0 := by unfold scanChanCap; omega
    refine ⟨by unfold scanChanCap; omega, ?_⟩
    unfold Scan
    rw [if_neg hcap]
    rfl
  · intro hse
    have hcap : scanChanCap s e < 0 := by unfold scanChanCap; omega
    unfold Scan
    rw [if_pos hcap]

/-- C10 witness: `[1,5]` allocates capacity 5 and returns; `[9,5]` has
capacity `-3` and panics. -/
theorem scan_channel_capacity_safe_witness :
    (0 < scanChanCap 1 5 ∧ (Scan psW envW (fun l => l) 1 5).isSome)
    ∧ Scan psW envW (fun l => l) 9 5 = none :=
  ⟨(scan_channel_capacity_safe psW envW (fun l => l) 1 5).2.1 (by decide),
    (scan_channel_capacity_safe psW envW (fun l => l) 9 5).2.2 (by decide)⟩
